import Mathlib

/-!
# Verification of `wallpicker.py`

A shallow embedding of the wallpaper-chooser utility `src/wallpicker.py`:
image discovery (`find_images`), the grid-layout arithmetic of
`WallPicker.populate`, the external-command helpers (`run_cmd`,
`set_wallpaper_wayland`, `set_hyprland_border_from_wal`) and the selection
dispatcher (`WallPicker.on_select`).

Python integers are modelled by `Nat`/`Int` (Python ints are unbounded);
Python `//` on integers is floor division, modelled by `Int.fdiv`;
fallible external calls are modelled by `Except` values describing the
exception behaviour of `subprocess`.
-/

namespace Wallpicker

/-- The Python exceptions relevant to the modelled code paths. -/
inductive PyExc where
  | fileNotFound
  | calledProcessError
  | jsonDecodeError
  | keyError
deriving DecidableEq

instance {ε α : Type} [DecidableEq ε] [DecidableEq α] : DecidableEq (Except ε α) :=
  fun x y =>
    match x, y with
    | .ok a, .ok b =>
      if h : a = b then .isTrue (by rw [h])
      else .isFalse (by intro hh; injection hh; contradiction)
    | .ok _, .error _ => .isFalse (by intro h; exact Except.noConfusion h)
    | .error _, .ok _ => .isFalse (by intro h; exact Except.noConfusion h)
    | .error a, .error b =>
      if h : a = b then .isTrue (by rw [h])
      else .isFalse (by intro hh; injection hh; contradiction)

/-- Outcome of attempting to run one external command: either the binary is
missing (spawning raises `FileNotFoundError`) or the process runs and exits
with the given code. -/
inductive CmdResult where
  | noBinary
  | exit (code : Nat)
deriving DecidableEq

/-- Model of `subprocess.run(cmd, check=True)`: raises `FileNotFoundError` when the
binary is missing, raises `CalledProcessError` on a non-zero exit code, and
returns normally on exit code 0. -/
def subprocessRunCheck : CmdResult → Except PyExc Unit
  | .noBinary => .error .fileNotFound
  | .exit 0 => .ok ()
  | .exit (_ + 1) => .error .calledProcessError

/-- Model of `run_cmd` from wallpicker.py:
```
def run_cmd(cmd):
    try:
        subprocess.run(cmd, check=True)
        return True
    except Exception:
        return False
```
-/
def runCmd (r : CmdResult) : Bool :=
  match subprocessRunCheck r with
  | .ok _ => true
  | .error _ => false

/-- Model of `subprocess.Popen(cmd)`: raises `FileNotFoundError` when the binary is
missing, otherwise spawns the process and returns at once (fire-and-forget:
the exit code is never inspected). -/
def popen (binaryPresent : Bool) : Except PyExc Unit :=
  if binaryPresent then .ok () else .error .fileNotFound

/-! ## Image discovery -/

/-- The `SUPPORTED_EXTS` tuple from wallpicker.py. -/
def SUPPORTED_EXTS : List String := [".jpg", ".jpeg", ".png", ".webp", ".bmp", ".gif"]

/-- The `BORDER_COLOR` constant from wallpicker.py: which pywal color styles the border. -/
def BORDER_COLOR : String := "color4"

/-- One entry of a directory listing: its file name and whether it is a
regular file (subdirectories, sockets, … have `isFile = false`).
`Path.iterdir()` yields every kind of entry. -/
structure DirEntry where
  name : String
  isFile : Bool
deriving DecidableEq

/-- Model of `pathlib.PurePath.suffix`: the last component's extension.  CPython:
`i = name.rfind('.')`, return `name[i:]` when `0 < i < len(name) - 1`,
else the empty string. -/
def pySuffix (name : String) : String :=
  let cs := name.toList
  match (cs.enum.filter (fun p => p.2 == '.')).getLast? with
  | none => ""
  | some (i, _) => if 0 < i ∧ i < cs.length - 1 then String.mk (cs.drop i) else ""

/-- Python `s.lower()` (ASCII): lowercase each character. -/
def pyLower (s : String) : String :=
  String.mk (s.toList.map Char.toLower)

/-- The extension filter of `find_images`: `f.suffix.lower() in SUPPORTED_EXTS`. -/
def extMatches (name : String) : Bool :=
  SUPPORTED_EXTS.contains (pyLower (pySuffix name))

/-- Python string comparison: lexicographic by Unicode code point. -/
def pyCharListLe : List Char → List Char → Bool
  | [], _ => true
  | _ :: _, [] => false
  | a :: as, b :: bs =>
    if a < b then true
    else if b < a then false
    else pyCharListLe as bs

/-- Python `a <= b` on strings. -/
def pyStrLe (a b : String) : Bool := pyCharListLe a.toList b.toList

/-- Ordering of directory entries used by `sorted(p.iterdir())`: paths inside
one directory compare by their final component's string. -/
def entryLe (a b : DirEntry) : Prop := pyStrLe a.name b.name = true

instance : DecidableRel entryLe := fun a b =>
  inferInstanceAs (Decidable (pyStrLe a.name b.name = true))

theorem pyCharListLe_total (as bs : List Char) :
    pyCharListLe as bs = true ∨ pyCharListLe bs as = true := by
  induction as generalizing bs with
  | nil => left; rfl
  | cons a as ih =>
    cases bs with
    | nil => right; rfl
    | cons b bs =>
      rcases lt_trichotomy a b with h | h | h
      · left; simp [pyCharListLe, h]
      · subst h
        rcases ih bs with h' | h' <;> [left; right] <;>
          simp [pyCharListLe, lt_irrefl, h']
      · right; simp [pyCharListLe, h]

theorem pyCharListLe_trans (as bs cs : List Char)
    (h₁ : pyCharListLe as bs = true) (h₂ : pyCharListLe bs cs = true) :
    pyCharListLe as cs = true := by
  induction as generalizing bs cs with
  | nil => rfl
  | cons a as ih =>
    cases bs with
    | nil => simp [pyCharListLe] at h₁
    | cons b bs =>
      cases cs with
      | nil => simp [pyCharListLe] at h₂
      | cons c cs =>
        simp only [pyCharListLe] at h₁ h₂ ⊢
        by_cases hab : a < b
        · by_cases hbc : b < c
          · simp [lt_trans hab hbc]
          · by_cases hcb : c < b
            · simp [pyCharListLe, hab, hbc, hcb] at h₂
            · have : b = c := le_antisymm (not_lt.mp hcb) (not_lt.mp hbc)
              subst this
              simp [hab]
        · by_cases hba : b < a
          · simp [hab, hba] at h₁
          · have : a = b := le_antisymm (not_lt.mp hba) (not_lt.mp hab)
            subst this
            by_cases hac : a < c
            · simp [hac]
            · by_cases hca : c < a
              · simp [hac, hca] at h₂
              · have : a = c := le_antisymm (not_lt.mp hca) (not_lt.mp hac)
                subst this
                simp [lt_irrefl] at h₁ h₂ ⊢
                exact ih bs cs h₁ h₂

instance : IsTotal DirEntry entryLe :=
  ⟨fun a b => pyCharListLe_total a.name.toList b.name.toList⟩

instance : IsTrans DirEntry entryLe :=
  ⟨fun _ b _ hab hbc => pyCharListLe_trans _ b.name.toList _ hab hbc⟩

/-- Model of `find_images` from wallpicker.py.  The filesystem view of the folder is
`none` when the path does not exist or is not a directory, else `some` of its
entries.
```
def find_images(folder):
    p = Path(folder).expanduser()
    if not p.exists() or not p.is_dir():
        return []
    imgs = [str(f) for f in sorted(p.iterdir()) if f.suffix.lower() in SUPPORTED_EXTS]
    return imgs
```
Python's `sorted` is a stable sort by `≤`; it is embedded as
`List.insertionSort` (stable sorts by a total order agree). -/
def find_images (fs : Option (List DirEntry)) : List String :=
  match fs with
  | none => []
  | some entries =>
      ((List.insertionSort entryLe entries).filter (fun f => extMatches f.name)).map
        DirEntry.name

/-- What claim C4 asserts discovery returns: only the *regular files* with a
supported extension, sorted by name.  (The code never checks regularity.) -/
def discoveryRegularFiles (fs : Option (List DirEntry)) : List String :=
  match fs with
  | none => []
  | some entries =>
      ((List.insertionSort entryLe entries).filter
          (fun f => f.isFile && extMatches f.name)).map DirEntry.name

/-! ## Grid layout (`WallPicker.populate`) -/

/-- Count upward from `c` to the least square root bound, spending one unit
of fuel per step (`n ≤ n * n`, so `n` units always suffice from `0`). -/
def ceilSqrtAux (n : Nat) : Nat → Nat → Nat
  | c, 0 => c
  | c, fuel + 1 => if n ≤ c * c then c else ceilSqrtAux n (c + 1) fuel

/-- Model of `cols = math.ceil(math.sqrt(n))` (exact-arithmetic reading): the least
`c` with `n ≤ c * c`. -/
def gridCols (n : Nat) : Nat := ceilSqrtAux n 0 n

theorem ceilSqrtAux_spec (n : Nat) :
    ∀ fuel c, n ≤ (c + fuel) * (c + fuel) →
      n ≤ ceilSqrtAux n c fuel * ceilSqrtAux n c fuel ∧
      c ≤ ceilSqrtAux n c fuel ∧
      ∀ d, n ≤ d * d → c ≤ d → ceilSqrtAux n c fuel ≤ d := by
  intro fuel
  induction fuel with
  | zero =>
    intro c h
    refine ⟨by simpa [ceilSqrtAux] using h, by simp [ceilSqrtAux], ?_⟩
    intro d _ hcd
    simpa [ceilSqrtAux] using hcd
  | succ fuel ih =>
    intro c h
    by_cases hc : n ≤ c * c
    · refine ⟨by simp [ceilSqrtAux, hc], by simp [ceilSqrtAux, hc], ?_⟩
      intro d _ hcd
      simpa [ceilSqrtAux, hc] using hcd
    · have h' : n ≤ (c + 1 + fuel) * (c + 1 + fuel) := by
        have : c + (fuel + 1) = c + 1 + fuel := by omega
        rwa [this] at h
      obtain ⟨h₁, h₂, h₃⟩ := ih (c + 1) h'
      refine ⟨by simpa [ceilSqrtAux, hc] using h₁, ?_, ?_⟩
      · have := h₂
        simp only [ceilSqrtAux, hc, if_false]
        omega
      · intro d hd hcd
        have hdc : c + 1 ≤ d := by
          rcases Nat.eq_or_lt_of_le hcd with rfl | h
          · exact absurd hd hc
          · omega
        simpa [ceilSqrtAux, hc] using h₃ d hd hdc

/-- The square of `gridCols n` covers `n`. -/
theorem le_gridCols_sq (n : Nat) : n ≤ gridCols n * gridCols n := by
  have hnn : n ≤ (0 + n) * (0 + n) := by
    rcases Nat.eq_zero_or_pos n with rfl | hn
    · simp
    · calc n = n * 1 := by omega
        _ ≤ (0 + n) * (0 + n) := by
          apply Nat.mul_le_mul <;> omega
  exact (ceilSqrtAux_spec n n 0 hnn).1

/-- Minimality: `gridCols n` is the least natural whose square covers `n`. -/
theorem gridCols_min (n c : Nat) (h : n ≤ c * c) : gridCols n ≤ c := by
  have hnn : n ≤ (0 + n) * (0 + n) := by
    rcases Nat.eq_zero_or_pos n with rfl | hn
    · simp
    · calc n = n * 1 := by omega
        _ ≤ (0 + n) * (0 + n) := by
          apply Nat.mul_le_mul <;> omega
  exact (ceilSqrtAux_spec n n 0 hnn).2.2 c h (Nat.zero_le c)

/-- For at least one image there is at least one column. -/
theorem gridCols_pos (n : Nat) (hn : 1 ≤ n) : 1 ≤ gridCols n := by
  by_contra h
  have h0 : gridCols n = 0 := by omega
  have := le_gridCols_sq n
  rw [h0] at this
  omega

/-- Model of `rows = math.ceil(n / cols)` (exact-arithmetic reading): the ceiling of
`n / cols`, i.e. `(n + cols - 1) / cols` over the naturals. -/
def gridRows (n : Nat) : Nat :=
  (n + (gridCols n - 1)) / gridCols n

/-- Python's integer floor division `//`. -/
def pyFloorDiv (a b : Int) : Int := Int.fdiv a b

/-- Model of `thumb_side_w = (available_w - (cols - 1) * self.grid.spacing()) // cols`,
`thumb_side_h = (available_h - (rows - 1) * self.grid.spacing()) // rows`,
`thumb_side = min(thumb_side_w, thumb_side_h)`. -/
def thumbSide (availW availH spacing : Int) (rows cols : Int) : Int :=
  min (pyFloorDiv (availW - (cols - 1) * spacing) cols)
    (pyFloorDiv (availH - (rows - 1) * spacing) rows)

/-- One thumbnail button placed in the grid: its image path, grid position
(`row = idx // cols`, `col = idx % cols`) and its fixed size. -/
structure Cell where
  path : String
  row : Nat
  col : Nat
  size : Int
deriving DecidableEq

/-- What `populate` builds into the grid: either the single disabled
placeholder button (the `n == 0` branch) or the grid of thumbnail buttons. -/
inductive Layout where
  | placeholder (text : String) (enabled : Bool)
  | grid (rows cols : Nat) (thumb : Int) (cells : List Cell)
deriving DecidableEq

/-- The cells holding images (the placeholder is not an image cell). -/
def Layout.imageCells : Layout → List Cell
  | .placeholder _ _ => []
  | .grid _ _ _ cells => cells

/-- Number of buttons added to the grid by this layout. -/
def Layout.cellCount : Layout → Nat
  | .placeholder _ _ => 1
  | .grid _ _ _ cells => cells.length

/-- The placeholder button's text and enabled flag, when the layout is the
placeholder. -/
def Layout.placeholderInfo : Layout → Option (String × Bool)
  | .placeholder text enabled => some (text, enabled)
  | .grid _ _ _ _ => none

/-- Model of `WallPicker.populate`, as a pure function of the discovered image list,
the available drawing area (window size minus the grid's content margins) and
the grid spacing.  Mirrors:
```
n = len(self.images)
if n == 0:
    btn = QPushButton("No images found\n" + str(self.image_dir)); btn.setEnabled(False)
    self.grid.addWidget(btn, 0, 0); return
cols = math.ceil(math.sqrt(n)); rows = math.ceil(n / cols)
thumb_side_w = (available_w - (cols - 1) * spacing) // cols
thumb_side_h = (available_h - (rows - 1) * spacing) // rows
thumb_side = min(thumb_side_w, thumb_side_h)
for idx, imgpath in enumerate(self.images):
    row = idx // cols; col = idx % cols
    btn.setFixedSize(thumb_side, thumb_side); self.grid.addWidget(btn, row, col)
```
-/
def populate (image_dir : String) (images : List String)
    (availW availH spacing : Int) : Layout :=
  let n := images.length
  if n = 0 then
    .placeholder ("No images found\n" ++ image_dir) false
  else
    let cols := gridCols n
    let rows := gridRows n
    let ts := thumbSide availW availH spacing (rows : Int) (cols : Int)
    .grid rows cols ts
      (images.enum.map (fun p => ⟨p.2, p.1 / cols, p.1 % cols, ts⟩))

/-- The UI state of the `WallPicker` widget that discovery and layout touch:
the chosen directory, the fixed window geometry, and the mutable
`self.images` list plus grid contents. -/
structure PickerState where
  image_dir : String
  availW : Int
  availH : Int
  spacing : Int
  images : List String
  layout : Layout
deriving DecidableEq

/-- Model of `WallPicker.refresh` (also the tail of `__init__`): re-runs discovery and
`populate`, overwriting `self.images` and the grid contents.  `fs` is the
filesystem view of `image_dir` at that moment. -/
def refresh (fs : Option (List DirEntry)) (st : PickerState) : PickerState :=
  let imgs := find_images fs
  { st with
    images := imgs
    layout := populate st.image_dir imgs st.availW st.availH st.spacing }

/-! ## Wallpaper backends (`set_wallpaper_wayland`) -/

/-- The four wallpaper-setter backends, in the code's priority order. -/
inductive Backend where
  | swww
  | hyprpaper
  | swaybg
  | feh
deriving DecidableEq

/-- What each backend's process would do if invoked. -/
structure WallpaperEnv where
  swww : CmdResult
  hyprpaper : CmdResult
  swaybg : CmdResult
  feh : CmdResult
deriving DecidableEq

/-- Look up the outcome the environment assigns to a backend. -/
def WallpaperEnv.result (env : WallpaperEnv) : Backend → CmdResult
  | .swww => env.swww
  | .hyprpaper => env.hyprpaper
  | .swaybg => env.swaybg
  | .feh => env.feh

/-- Model of `set_wallpaper_wayland` from wallpicker.py, instrumented with the list of
backends actually invoked:
```
def set_wallpaper_wayland(image_path):
    if run_cmd(["swww", "img", image_path, "--output", "all"]): return True
    if run_cmd(["hyprpaper", "--set", image_path]): return True
    if run_cmd(["swaybg", "-i", image_path]): return True
    if run_cmd(["feh", "--bg-scale", image_path]): return True
    return False
```
-/
def set_wallpaper_wayland (env : WallpaperEnv) : Bool × List Backend :=
  let attempts := [Backend.swww]
  if runCmd env.swww then (true, attempts)
  else
    let attempts := attempts ++ [Backend.hyprpaper]
    if runCmd env.hyprpaper then (true, attempts)
    else
      let attempts := attempts ++ [Backend.swaybg]
      if runCmd env.swaybg then (true, attempts)
      else
        let attempts := attempts ++ [Backend.feh]
        if runCmd env.feh then (true, attempts)
        else (false, attempts)

/-! ## Hyprland border color (`set_hyprland_border_from_wal`) -/

/-- The state of `~/.cache/wal/colors.json` as the accent-color step sees it:
missing, present but not valid JSON, or a parsed JSON document whose
`"colors"` key (when present) maps color-slot names to strings. -/
inductive WalFile where
  | absent
  | malformed
  | json (colors : Option (List (String × String)))
deriving DecidableEq

/-- Model of `json.load(f)`: raises `JSONDecodeError` on malformed input, else yields
the document.  (The `absent` case is unreachable here: the code checks
`wal_colors.exists()` before opening.) -/
def jsonLoad : WalFile → Except PyExc (Option (List (String × String)))
  | .absent => .error .fileNotFound
  | .malformed => .error .jsonDecodeError
  | .json colors => .ok colors

/-- Model of `data["colors"]`: raises `KeyError` when the key is missing. -/
def getColorsKey : Option (List (String × String)) → Except PyExc (List (String × String))
  | none => .error .keyError
  | some colors => .ok colors

/-- Model of `colors[key]` on the string mapping: raises `KeyError` when missing. -/
def getKey (colors : List (String × String)) (key : String) : Except PyExc String :=
  match colors.lookup key with
  | none => .error .keyError
  | some v => .ok v

/-- Python `s.lstrip("#")`: remove every leading `'#'`. -/
def lstripHash (s : String) : String :=
  String.mk (s.toList.dropWhile (fun c => c == '#'))

/-- Python `s.upper()` on ASCII hex digits: uppercase each character. -/
def pyUpper (s : String) : String :=
  String.mk (s.toList.map Char.toUpper)

/-- The accent token built by the code:
`hexcol = data["colors"][BORDER_COLOR].lstrip("#")` and
`col = f"0x{hexcol.upper()}"` (the braces delimit the interpolation). -/
def formatColorToken (value : String) : String :=
  "0x" ++ pyUpper (lstripHash value)

/-- Model of `set_hyprland_border_from_wal` from wallpicker.py.  The result is `.ok`
of the list of `hyprctl keyword col.active_border <token>` commands issued
(the `hyprctl` call itself uses `check=False`, so its own failure changes
nothing); an `.error` result would mean an exception escaped to the caller.
```
def set_hyprland_border_from_wal():
    wal_colors = Path.home() / ".cache" / "wal" / "colors.json"
    if not wal_colors.exists(): return
    try:
        with open(wal_colors) as f: data = json.load(f)
        hexcol = data["colors"][BORDER_COLOR].lstrip("#")
        col = f"0x{hexcol.upper()}"
        subprocess.run(["hyprctl", "keyword", "col.active_border", col], check=False)
    except Exception as e:
        print("Failed to set Hyprland border color:", e)
```
-/
def set_hyprland_border_from_wal (f : WalFile) : Except PyExc (List String) :=
  if f = .absent then .ok []
  else
    match (do
        let data ← jsonLoad f
        let colors ← getColorsKey data
        let hexraw ← getKey colors BORDER_COLOR
        pure [formatColorToken hexraw] : Except PyExc (List String)) with
    | .ok cmds => .ok cmds
    | .error _ => .ok []

/-- The designated palette slot's raw value, when the file is a JSON document
with a `colors` mapping that contains `BORDER_COLOR`. -/
def designatedSlot : WalFile → Option String
  | .json (some colors) => colors.lookup BORDER_COLOR
  | _ => none

/-! ## The selection dispatcher (`WallPicker.on_select`) -/

/-- The five propagation steps of the dispatcher, in program order. -/
inductive Step where
  | palette
  | walcord
  | wallpaper
  | border
  | spicetify
deriving DecidableEq

/-- Everything the dispatcher's external world can vary: which collaborator
binaries exist, what the wallpaper backends do, and the pywal palette file. -/
structure Env where
  walPresent : Bool
  walcordPresent : Bool
  spicetifyPresent : Bool
  wallpapers : WallpaperEnv
  walFile : WalFile
deriving DecidableEq

/-- Model of `WallPicker.on_select`, instrumented with the list of steps whose code is
reached.  Returns that trace together with `.ok ()` on normal return or
`.error e` when exception `e` escapes the handler.
```
def on_select(self, path):
    subprocess.Popen(["wal", "-i", path])            # unguarded
    try: subprocess.Popen(["walcord"])
    except FileNotFoundError: pass
    set_wallpaper_wayland(path)
    set_hyprland_border_from_wal()
    try: subprocess.Popen(["spicetify", "apply"])
    except FileNotFoundError: print("Spicetify not installed, skipping...")
```
-/
def on_select (env : Env) : List Step × Except PyExc Unit :=
  match popen env.walPresent with
  | .error e => ([Step.palette], .error e)
  | .ok _ =>
    let _walcord : Unit :=
      match popen env.walcordPresent with
      | .error .fileNotFound => ()
      | _ => ()
    let _wallpaper := set_wallpaper_wayland env.wallpapers
    let _border := set_hyprland_border_from_wal env.walFile
    let _spicetify : Unit :=
      match popen env.spicetifyPresent with
      | .error .fileNotFound => ()
      | _ => ()
    ([Step.palette, Step.walcord, Step.wallpaper, Step.border, Step.spicetify], .ok ())

/-! ## Spec-side definitions for refinement claims -/

/-- Modelled from the spec's words for claim C10: "stripping any leading '#'
characters". -/
def stripLeadingHashes : List Char → List Char
  | [] => []
  | c :: cs => if c = '#' then stripLeadingHashes cs else c :: cs

/-- Modelled from the spec's words for claim C10: strip leading `'#'`,
uppercase the remaining hex digits, prefix `0x`. -/
def accentTokenSpec (s : String) : String :=
  "0x" ++ String.mk ((stripLeadingHashes s.toList).map Char.toUpper)

/-! ## Arithmetic helper lemmas -/

/-- Ceiling division covers: `n ≤ ⌈n/c⌉ * c`. -/
theorem le_ceilDiv_mul (n c : Nat) (hc : 1 ≤ c) : n ≤ (n + (c - 1)) / c * c := by
  obtain ⟨c', rfl⟩ : ∃ c', c = c' + 1 := ⟨c - 1, by omega⟩
  simp only [Nat.add_sub_cancel]
  have hdm := Nat.div_add_mod (n + c') (c' + 1)
  have hml : (n + c') % (c' + 1) < c' + 1 := Nat.mod_lt _ (by omega)
  nlinarith [hdm, hml]

/-- Ceiling division is tight: `⌈n/c⌉ * c < n + c`. -/
theorem ceilDiv_mul_lt (n c : Nat) (hc : 1 ≤ c) : (n + (c - 1)) / c * c < n + c := by
  obtain ⟨c', rfl⟩ : ∃ c', c = c' + 1 := ⟨c - 1, by omega⟩
  simp only [Nat.add_sub_cancel]
  have hdm := Nat.div_add_mod (n + c') (c' + 1)
  have hml : (n + c') % (c' + 1) < c' + 1 := Nat.mod_lt _ (by omega)
  nlinarith [hdm, hml, Nat.zero_le ((n + c') % (c' + 1))]

/-- Ceiling division is monotone below any cover: `n ≤ k*c → ⌈n/c⌉ ≤ k`. -/
theorem ceilDiv_le (n k c : Nat) (hc : 1 ≤ c) (h : n ≤ k * c) :
    (n + (c - 1)) / c ≤ k := by
  obtain ⟨c', rfl⟩ : ∃ c', c = c' + 1 := ⟨c - 1, by omega⟩
  simp only [Nat.add_sub_cancel]
  have hlt : n + c' < (k + 1) * (c' + 1) := by nlinarith
  have := (Nat.div_lt_iff_lt_mul (by omega : 0 < c' + 1)).mpr hlt
  omega

/-- The grid never under-covers: `n ≤ rows * cols`. -/
theorem le_gridRows_mul (n : Nat) (hn : 1 ≤ n) : n ≤ gridRows n * gridCols n :=
  le_ceilDiv_mul n (gridCols n) (gridCols_pos n hn)

/-- At most one partially-filled row of waste: `rows * cols < n + cols`. -/
theorem gridRows_mul_lt (n : Nat) (hn : 1 ≤ n) : gridRows n * gridCols n < n + gridCols n :=
  ceilDiv_mul_lt n (gridCols n) (gridCols_pos n hn)

/-- The grid is at least as wide as tall. -/
theorem gridRows_le_gridCols (n : Nat) (hn : 1 ≤ n) : gridRows n ≤ gridCols n :=
  ceilDiv_le n (gridCols n) (gridCols n) (gridCols_pos n hn) (le_gridCols_sq n)

/-- At least one row when there is at least one image. -/
theorem gridRows_pos (n : Nat) (hn : 1 ≤ n) : 1 ≤ gridRows n := by
  by_contra h
  have h0 : gridRows n = 0 := by omega
  have := le_gridRows_mul n hn
  rw [h0] at this
  omega

/-- The grid is near-square: `cols ≤ rows + 1`. -/
theorem gridCols_le_gridRows_succ (n : Nat) (hn : 1 ≤ n) :
    gridCols n ≤ gridRows n + 1 := by
  by_contra h
  push_neg at h
  have hc : 1 ≤ gridCols n := gridCols_pos n hn
  obtain ⟨c'', hc''⟩ : ∃ c'', gridCols n = c'' + 1 := ⟨gridCols n - 1, by omega⟩
  have hlow : c'' * c'' < n := by
    by_contra h2
    push_neg at h2
    have := gridCols_min n c'' h2
    omega
  have hfit := le_gridRows_mul n hn
  rw [hc''] at hfit h
  have hr : gridRows n + 1 ≤ c'' := by omega
  nlinarith [Nat.mul_le_mul_right (c'' + 1) hr]

/-- Among near-square grids that fit `n` cells, the chosen grid has the least
area (hence the least waste). -/
theorem grid_area_min (n r c : Nat) (hn : 1 ≤ n) (hrc : r ≤ c) (hcr : c ≤ r + 1)
    (hfit : n ≤ r * c) : gridRows n * gridCols n ≤ r * c := by
  have hc0 : 1 ≤ gridCols n := gridCols_pos n hn
  by_cases hcase : gridCols n ≤ c
  · by_cases hr : gridCols n ≤ r
    · calc gridRows n * gridCols n ≤ gridCols n * gridCols n :=
          Nat.mul_le_mul_right _ (gridRows_le_gridCols n hn)
        _ ≤ r * c := Nat.mul_le_mul hr hcase
    · have hcc : c = gridCols n := by omega
      have hfit' : n ≤ r * gridCols n := by rwa [hcc] at hfit
      have hr0 : gridRows n ≤ r := ceilDiv_le n r (gridCols n) hc0 hfit'
      calc gridRows n * gridCols n ≤ r * gridCols n := Nat.mul_le_mul_right _ hr0
        _ = r * c := by rw [hcc]
  · exfalso
    have h1 : n ≤ c * c := le_trans hfit (Nat.mul_le_mul_right _ hrc)
    have := gridCols_min n c h1
    omega

/-- Floor division (Python `//`) under-approximates: `(a // b) * b ≤ a`. -/
theorem fdiv_mul_le (a b : Int) (hb : 0 < b) : Int.fdiv a b * b ≤ a := by
  have h := Int.fdiv_add_fmod a b
  have h2 := Int.fmod_nonneg' a hb
  nlinarith

/-! ## The claims -/

/-- C1: for every `N ≥ 1` the grid layout computes `cols = ceil(sqrt N)` (the
least `c` with `N ≤ c*c`) and `rows = ceil(N/cols)` (characterised by
`N ≤ rows*cols < N + cols`); these satisfy `rows*cols ≥ N`,
`rows*cols - N < cols` and `cols ≥ rows`; and among near-square grids
(`rows ≤ cols ≤ rows + 1`, which the chosen grid itself satisfies) that hold
`N` cells, this choice minimises the waste `rows*cols - N`. -/
theorem C1_grid_dimensions (n : Nat) (hn : 1 ≤ n) :
    (n ≤ gridCols n * gridCols n ∧ ∀ c, n ≤ c * c → gridCols n ≤ c) ∧
    (n ≤ gridRows n * gridCols n ∧ gridRows n * gridCols n < n + gridCols n) ∧
    gridRows n * gridCols n - n < gridCols n ∧
    gridRows n ≤ gridCols n ∧
    gridCols n ≤ gridRows n + 1 ∧
    (∀ r c, r ≤ c → c ≤ r + 1 → n ≤ r * c →
      gridRows n * gridCols n - n ≤ r * c - n) := by
  refine ⟨⟨le_gridCols_sq n, fun c h => gridCols_min n c h⟩,
    ⟨le_gridRows_mul n hn, gridRows_mul_lt n hn⟩, ?_,
    gridRows_le_gridCols n hn, gridCols_le_gridRows_succ n hn, ?_⟩
  · have h1 := le_gridRows_mul n hn
    have h2 := gridRows_mul_lt n hn
    exact (tsub_lt_iff_left h1).mpr h2
  · intro r c hrc hcr hfit
    exact Nat.sub_le_sub_right (grid_area_min n r c hn hrc hcr hfit) n

/-- Witness for C1 at `N = 5`: `cols = 3`, `rows = 2`, waste `1 < 3`. -/
theorem C1_grid_dimensions_witness :
    1 ≤ 5 ∧ gridCols 5 = 3 ∧ gridRows 5 = 2 ∧
    gridRows 5 * gridCols 5 - 5 < gridCols 5 :=
  ⟨by decide, by decide, by decide, (C1_grid_dimensions 5 (by decide)).2.2.1⟩

/-- C3: `set_wallpaper_wayland` tries swww, then hyprpaper, then swaybg, then
feh, each at most once, stopping at the first whose process exits 0; if all
four fail it returns `False` (and, being `Bool`-valued through `run_cmd`,
raises nothing). -/
theorem C3_wallpaper_fallback (env : WallpaperEnv) :
    (runCmd env.swww = true →
      set_wallpaper_wayland env = (true, [Backend.swww])) ∧
    (runCmd env.swww = false → runCmd env.hyprpaper = true →
      set_wallpaper_wayland env = (true, [Backend.swww, Backend.hyprpaper])) ∧
    (runCmd env.swww = false → runCmd env.hyprpaper = false →
      runCmd env.swaybg = true →
      set_wallpaper_wayland env =
        (true, [Backend.swww, Backend.hyprpaper, Backend.swaybg])) ∧
    (runCmd env.swww = false → runCmd env.hyprpaper = false →
      runCmd env.swaybg = false → runCmd env.feh = true →
      set_wallpaper_wayland env =
        (true, [Backend.swww, Backend.hyprpaper, Backend.swaybg, Backend.feh])) ∧
    (runCmd env.swww = false → runCmd env.hyprpaper = false →
      runCmd env.swaybg = false → runCmd env.feh = false →
      set_wallpaper_wayland env =
        (false, [Backend.swww, Backend.hyprpaper, Backend.swaybg, Backend.feh])) ∧
    (set_wallpaper_wayland env).2.Nodup ∧
    ((set_wallpaper_wayland env).1 = false ↔
      runCmd env.swww = false ∧ runCmd env.hyprpaper = false ∧
      runCmd env.swaybg = false ∧ runCmd env.feh = false) := by
  rcases h1 : runCmd env.swww <;> rcases h2 : runCmd env.hyprpaper <;>
    rcases h3 : runCmd env.swaybg <;> rcases h4 : runCmd env.feh <;>
    simp [set_wallpaper_wayland, h1, h2, h3, h4]

/-- Witness for C3: swww missing, hyprpaper succeeds — swaybg and feh are
never attempted. -/
theorem C3_wallpaper_fallback_witness :
    set_wallpaper_wayland ⟨.noBinary, .exit 0, .exit 1, .exit 0⟩ =
      (true, [Backend.swww, Backend.hyprpaper]) :=
  (C3_wallpaper_fallback ⟨.noBinary, .exit 0, .exit 1, .exit 0⟩).2.1
    (by decide) (by decide)

/-- C9: `run_cmd` is total, returns `True` exactly on a spawned process
exiting 0, and `False` on every failure (missing binary or non-zero exit),
swallowing the exception. -/
theorem C9_runCmd_total (r : CmdResult) :
    (runCmd r = true ↔ r = CmdResult.exit 0) ∧
    (runCmd r = false ↔ ∃ e, subprocessRunCheck r = .error e) := by
  rcases r with _ | code
  · simp [runCmd, subprocessRunCheck]
  · rcases code with _ | code <;> simp [runCmd, subprocessRunCheck]

theorem dropWhile_hash_eq_strip (cs : List Char) :
    cs.dropWhile (fun c => c == '#') = stripLeadingHashes cs := by
  induction cs with
  | nil => rfl
  | cons c cs ih =>
    by_cases h : c = '#'
    · simp [List.dropWhile_cons, stripLeadingHashes, h, ih]
    · simp [List.dropWhile_cons, stripLeadingHashes, h]

/-- C10: the accent token strips every leading `'#'`, uppercases the rest and
prefixes `0x`; in particular `"#aabbcc"` becomes `"0xAABBCC"`. -/
theorem C10_accent_token :
    (∀ s, formatColorToken s = accentTokenSpec s) ∧
    formatColorToken "#aabbcc" = "0xAABBCC" := by
  constructor
  · intro s
    unfold formatColorToken accentTokenSpec pyUpper lstripHash
    rw [show (String.mk (s.toList.dropWhile fun c => c == '#')).toList =
        s.toList.dropWhile fun c => c == '#' from rfl]
    rw [dropWhile_hash_eq_strip]
  · decide

/-- A directory containing a single subdirectory whose name ends in `.png`. -/
def fsWithDirNamedPng : Option (List DirEntry) := some [⟨"a.png", false⟩]

/-- Counterexample to C4 as stated: discovery does not return "exactly the
regular files" — a subdirectory named `a.png` is returned too, because the
code filters `iterdir()` by suffix only and never checks `is_file()`. -/
theorem C4_counterexample :
    find_images fsWithDirNamedPng ≠ discoveryRegularFiles fsWithDirNamedPng ∧
    find_images fsWithDirNamedPng = ["a.png"] ∧
    discoveryRegularFiles fsWithDirNamedPng = [] := by decide

/-- C4 (amended): discovery returns exactly the directory entries *of any
kind* whose extension, case-insensitively, is supported, sorted by filename
ascending; a missing or non-directory path yields `[]`; and the spec's
example directory yields `[A.JPG, b.png]`. -/
theorem C4_discovery_amended :
    (∀ fs, List.Pairwise (fun a b => pyStrLe a b = true) (find_images fs) ∧
      List.Perm (find_images fs)
        (((fs.getD []).filter (fun f => extMatches f.name)).map DirEntry.name)) ∧
    find_images (some [⟨"b.png", true⟩, ⟨"A.JPG", true⟩, ⟨"c.txt", true⟩]) =
      ["A.JPG", "b.png"] ∧
    find_images none = [] := by
  refine ⟨fun fs => ⟨?_, ?_⟩, by decide, rfl⟩
  · rcases fs with _ | entries
    · simp [find_images]
    · have hs : List.Sorted entryLe (List.insertionSort entryLe entries) :=
        List.sorted_insertionSort entryLe entries
      have hs' := hs.filter (fun f => extMatches f.name)
      simp only [find_images, Option.getD]
      exact (List.pairwise_map).mpr hs'
  · rcases fs with _ | entries
    · simp [find_images]
    · have hp : List.Perm (List.insertionSort entryLe entries) entries :=
        List.perm_insertionSort entryLe entries
      exact ((hp.filter (fun f => extMatches f.name)).map DirEntry.name)

/-- C5: for `N ≥ 1` a single uniform thumbnail side
`min((availW - (cols-1)·spacing) // cols, (availH - (rows-1)·spacing) // rows)`
is used for every cell, and it satisfies
`side·cols + (cols-1)·spacing ≤ availW` and
`side·rows + (rows-1)·spacing ≤ availH`. -/
theorem C5_thumb_side (images : List String) (hn : 1 ≤ images.length)
    (image_dir : String) (availW availH spacing : Int) :
    thumbSide availW availH spacing (gridRows images.length) (gridCols images.length) *
        (gridCols images.length : Int) +
        ((gridCols images.length : Int) - 1) * spacing ≤ availW ∧
    thumbSide availW availH spacing (gridRows images.length) (gridCols images.length) *
        (gridRows images.length : Int) +
        ((gridRows images.length : Int) - 1) * spacing ≤ availH ∧
    ∀ cell ∈ (populate image_dir images availW availH spacing).imageCells,
      cell.size =
        thumbSide availW availH spacing (gridRows images.length)
          (gridCols images.length) := by
  have hc : (0 : Int) < (gridCols images.length : Int) := by
    exact_mod_cast gridCols_pos images.length hn
  have hr : (0 : Int) < (gridRows images.length : Int) := by
    exact_mod_cast gridRows_pos images.length hn
  refine ⟨?_, ?_, ?_⟩
  · have h1 : thumbSide availW availH spacing (gridRows images.length)
        (gridCols images.length) ≤
        pyFloorDiv (availW - ((gridCols images.length : Int) - 1) * spacing)
          (gridCols images.length) := min_le_left _ _
    have h2 := fdiv_mul_le (availW - ((gridCols images.length : Int) - 1) * spacing)
      (gridCols images.length) hc
    have h3 := mul_le_mul_of_nonneg_right h1 (le_of_lt hc)
    simp only [pyFloorDiv] at h3 h2
    linarith
  · have h1 : thumbSide availW availH spacing (gridRows images.length)
        (gridCols images.length) ≤
        pyFloorDiv (availH - ((gridRows images.length : Int) - 1) * spacing)
          (gridRows images.length) := min_le_right _ _
    have h2 := fdiv_mul_le (availH - ((gridRows images.length : Int) - 1) * spacing)
      (gridRows images.length) hr
    have h3 := mul_le_mul_of_nonneg_right h1 (le_of_lt hr)
    simp only [pyFloorDiv] at h3 h2
    linarith
  · intro cell hcell
    have hne : ¬ images.length = 0 := by omega
    simp only [populate, hne, if_false, Layout.imageCells, List.mem_map] at hcell
    obtain ⟨p, _, rfl⟩ := hcell
    rfl

/-- Witness for C5 with one image in a 100×100 area with spacing 4. -/
theorem C5_thumb_side_witness :
    thumbSide 100 100 4 (gridRows 1) (gridCols 1) * (gridCols 1 : Int) +
        ((gridCols 1 : Int) - 1) * 4 ≤ 100 ∧
    ∀ cell ∈ (populate "d" ["a"] 100 100 4).imageCells,
      cell.size = thumbSide 100 100 4 (gridRows 1) (gridCols 1) :=
  ⟨(C5_thumb_side ["a"] (by decide) "d" 100 100 4).1,
    (C5_thumb_side ["a"] (by decide) "d" 100 100 4).2.2⟩

/-- C6: when discovery yields no images, `populate` builds exactly one
disabled placeholder cell carrying the diagnostic text, no image cells, and
raises nothing. -/
theorem C6_empty_placeholder (image_dir : String) (fs : Option (List DirEntry))
    (availW availH spacing : Int) (h : find_images fs = []) :
    populate image_dir (find_images fs) availW availH spacing =
      .placeholder ("No images found\n" ++ image_dir) false ∧
    (populate image_dir (find_images fs) availW availH spacing).cellCount = 1 ∧
    (populate image_dir (find_images fs) availW availH spacing).placeholderInfo =
      some ("No images found\n" ++ image_dir, false) ∧
    (populate image_dir (find_images fs) availW availH spacing).imageCells = [] := by
  rw [h]
  exact ⟨rfl, rfl, rfl, rfl⟩

/-- Witness for C6: a missing directory. -/
theorem C6_empty_placeholder_witness :
    find_images none = [] ∧
    (populate "dir" (find_images none) 100 100 4).cellCount = 1 ∧
    (populate "dir" (find_images none) 100 100 4).placeholderInfo =
      some ("No images found\ndir", false) :=
  ⟨rfl, (C6_empty_placeholder "dir" none 100 100 4 rfl).2.1,
    (C6_empty_placeholder "dir" none 100 100 4 rfl).2.2.1⟩

/-- C7: the accent-color step issues no `hyprctl` command when the palette
file is absent, malformed, or missing the designated slot, and lets no
exception escape (the result is always `.ok`); otherwise it issues exactly
the one command carrying the slot's formatted hex value. -/
theorem C7_accent_color (f : WalFile) :
    set_hyprland_border_from_wal f =
      .ok (((designatedSlot f).map formatColorToken).toList) := by
  rcases f with _ | _ | colors
  · rfl
  · rfl
  · rcases colors with _ | colors
    · rfl
    · simp only [set_hyprland_border_from_wal, designatedSlot]
      rcases h : colors.lookup BORDER_COLOR with _ | v <;>
        simp [jsonLoad, getColorsKey, getKey, h, Except.bind, bind, pure, Except.pure]

/-- C8: refresh is idempotent and independent of prior UI state (images and
grid are recomputed from the filesystem and the fixed geometry alone). -/
theorem C8_refresh_idempotent (fs : Option (List DirEntry)) (st st' : PickerState)
    (hdir : st'.image_dir = st.image_dir) (hw : st'.availW = st.availW)
    (hh : st'.availH = st.availH) (hs : st'.spacing = st.spacing) :
    refresh fs (refresh fs st) = refresh fs st ∧
    (refresh fs st').images = (refresh fs st).images ∧
    (refresh fs st').layout = (refresh fs st).layout := by
  refine ⟨?_, by simp [refresh], by simp [refresh, hdir, hw, hh, hs]⟩
  simp [refresh]

/-- Witness for C8: two states differing only in their mutable UI fields. -/
theorem C8_refresh_idempotent_witness :
    refresh none (refresh none ⟨"d", 100, 100, 4, [], .placeholder "x" true⟩) =
      refresh none ⟨"d", 100, 100, 4, [], .placeholder "x" true⟩ ∧
    (refresh none ⟨"d", 100, 100, 4, ["stale"], .placeholder "y" false⟩).layout =
      (refresh none ⟨"d", 100, 100, 4, [], .placeholder "x" true⟩).layout :=
  ⟨(C8_refresh_idempotent none ⟨"d", 100, 100, 4, [], .placeholder "x" true⟩
      ⟨"d", 100, 100, 4, [], .placeholder "x" true⟩ rfl rfl rfl rfl).1,
    (C8_refresh_idempotent none ⟨"d", 100, 100, 4, [], .placeholder "x" true⟩
      ⟨"d", 100, 100, 4, ["stale"], .placeholder "y" false⟩ rfl rfl rfl rfl).2.2⟩

/-- An environment where only the palette generator `wal` is missing. -/
def envMissingWal : Env :=
  ⟨false, true, true, ⟨.exit 0, .exit 0, .exit 0, .exit 0⟩,
    .json (some [("color4", "#aabbcc")])⟩

/-- Counterexample to C2 as stated: with the `wal` binary missing, step 1's
unguarded `Popen` raises `FileNotFoundError`, the exception escapes
`on_select`, and steps 3–5 (wallpaper, border, spicetify) are never
attempted. -/
theorem C2_counterexample :
    (on_select envMissingWal).2 = .error PyExc.fileNotFound ∧
    Step.wallpaper ∉ (on_select envMissingWal).1 ∧
    Step.border ∉ (on_select envMissingWal).1 ∧
    Step.spicetify ∉ (on_select envMissingWal).1 := by decide

/-- C2 (amended): provided the palette-generator binary is present (step 1's
`Popen` spawns), all five steps are attempted in order regardless of any
failure in steps 2–5 — missing binaries, failing backends, a bad palette
file — and no exception escapes the dispatcher. -/
theorem C2_dispatcher_amended (env : Env) (h : env.walPresent = true) :
    (on_select env).1 =
      [Step.palette, Step.walcord, Step.wallpaper, Step.border, Step.spicetify] ∧
    (on_select env).2 = .ok () := by
  simp [on_select, popen, h]

/-- Witness for C2 (amended): everything except `wal` fails, yet all five
steps run and the dispatcher returns normally. -/
theorem C2_dispatcher_amended_witness :
    (on_select ⟨true, false, false, ⟨.noBinary, .noBinary, .noBinary, .noBinary⟩,
        .malformed⟩).1 =
      [Step.palette, Step.walcord, Step.wallpaper, Step.border, Step.spicetify] ∧
    (on_select ⟨true, false, false, ⟨.noBinary, .noBinary, .noBinary, .noBinary⟩,
        .malformed⟩).2 = .ok () :=
  C2_dispatcher_amended
    ⟨true, false, false, ⟨.noBinary, .noBinary, .noBinary, .noBinary⟩, .malformed⟩ rfl

end Wallpicker
